import Mathlib

/-!
Shallow embedding of src/mock-grpc-server/mock-grpc-server.go.

Strings from the Go code are modelled as `List Char` (`GoStr`), byte slices as
`List Nat` with entries below 256 (`Bytes`).  Go maps and the `sync.Map` cache
are modelled as association lists with last-write-wins update (`setAssoc`) and
first-match lookup (`goLookup`); `setAssoc` keeps keys unique, which matches Go
map semantics.  File I/O is modelled by an explicit file-system function and an
explicit log of the paths read during a call.  Protobuf messages live on an
explicit heap (`World.heap`) addressed by `Ref := Nat`, so that aliasing facts
(cloning a prototype versus decoding into the shared prototype) are statable.
-/

abbrev GoStr := List Char
abbrev Bytes := List Nat
abbrev Ref := Nat

/-- Association-list update with Go map semantics: replaces the value at an
existing key, otherwise appends the binding. -/
def setAssoc {A B : Type} [DecidableEq A] : List (A × B) → A → B → List (A × B)
  | [], k, v => [(k, v)]
  | (k', v') :: rest, k, v =>
    if k' = k then (k, v) :: rest else (k', v') :: setAssoc rest k v

/-- Association-list lookup, modelling the Go map read `m[k]`. -/
def goLookup {A B : Type} [DecidableEq A] : List (A × B) → A → Option B
  | [], _ => none
  | (k', v) :: rest, k => if k' = k then some v else goLookup rest k

/-- Bytes of an ASCII string, modelling Go's `[]byte(s)`. -/
def strBytes (s : GoStr) : Bytes := s.map Char.toNat

/-- Characters of a byte slice, modelling Go's `string(b)` for ASCII data. -/
def bytesChars (b : Bytes) : GoStr := b.map Char.ofNat

/-! ## SHA-256 (model of Go `crypto/sha256.Sum256`) -/

/-- Truncation to a 32-bit word. -/
def w32 (n : Nat) : Nat := n % 4294967296

/-- Right rotation of a 32-bit word. -/
def rotr (n x : Nat) : Nat := w32 ((x >>> n) ||| (x <<< (32 - n)))

def smallSigma0 (x : Nat) : Nat := w32 ((rotr 7 x) ^^^ (rotr 18 x) ^^^ (x >>> 3))

def smallSigma1 (x : Nat) : Nat := w32 ((rotr 17 x) ^^^ (rotr 19 x) ^^^ (x >>> 10))

def bigSigma0 (x : Nat) : Nat := w32 ((rotr 2 x) ^^^ (rotr 13 x) ^^^ (rotr 22 x))

def bigSigma1 (x : Nat) : Nat := w32 ((rotr 6 x) ^^^ (rotr 11 x) ^^^ (rotr 25 x))

def chF (x y z : Nat) : Nat := w32 ((x &&& y) ^^^ ((x ^^^ 4294967295) &&& z))

def majF (x y z : Nat) : Nat := w32 ((x &&& y) ^^^ (x &&& z) ^^^ (y &&& z))

/-- Round constants of SHA-256. -/
def sha256K : List Nat :=
  [1116352408, 1899447441, 3049323471, 3921009573, 961987163, 1508970993,
   2453635748, 2870763221, 3624381080, 310598401, 607225278, 1426881987,
   1925078388, 2162078206, 2614888103, 3248222580, 3835390401, 4022224774,
   264347078, 604807628, 770255983, 1249150122, 1555081692, 1996064986,
   2554220882, 2821834349, 2952996808, 3210313671, 3336571891, 3584528711,
   113926993, 338241895, 666307205, 773529912, 1294757372, 1396182291,
   1695183700, 1986661051, 2177026350, 2456956037, 2730485921, 2820302411,
   3259730800, 3345764771, 3516065817, 3600352804, 4094571909, 275423344,
   430227734, 506948616, 659060556, 883997877, 958139571, 1322822218,
   1537002063, 1747873779, 1955562222, 2024104815, 2227730452, 2361852424,
   2428436474, 2756734187, 3204031479, 3329325298]

/-- Big-endian bytes of a 64-bit length field. -/
def be64bytes (n : Nat) : Bytes :=
  [(n >>> 56) % 256, (n >>> 48) % 256, (n >>> 40) % 256, (n >>> 32) % 256,
   (n >>> 24) % 256, (n >>> 16) % 256, (n >>> 8) % 256, n % 256]

/-- Big-endian bytes of a 32-bit word. -/
def be32bytes (x : Nat) : Bytes :=
  [(x >>> 24) % 256, (x >>> 16) % 256, (x >>> 8) % 256, x % 256]

/-- SHA-256 padding: a 128 byte, zeros up to 56 mod 64, then the bit length. -/
def sha256pad (msg : Bytes) : Bytes :=
  msg ++ 128 :: List.replicate ((119 - msg.length % 64) % 64) 0
      ++ be64bytes (8 * msg.length)

/-- Splits a byte list into 64-byte blocks; the fuel bounds the number of
blocks and is at least one per remaining byte. -/
def chunksAux : Nat → Bytes → List Bytes
  | 0, _ => []
  | _, [] => []
  | fuel + 1, l => l.take 64 :: chunksAux fuel (l.drop 64)

/-- Splits a byte list into 64-byte blocks. -/
def chunks64 (l : Bytes) : List Bytes := chunksAux l.length l

/-- Working state of the SHA-256 compression function: eight 32-bit words. -/
structure Hash8 where
  a : Nat
  b : Nat
  c : Nat
  d : Nat
  e : Nat
  f : Nat
  g : Nat
  h : Nat
deriving DecidableEq, Repr

/-- Initial hash value of SHA-256. -/
def initH8 : Hash8 :=
  ⟨1779033703, 3144134277, 1013904242, 2773480762,
   1359893119, 2600822924, 528734635, 1541459225⟩

/-- First sixteen words of the message schedule, big-endian from the block. -/
def blockWords (block : Bytes) : List Nat :=
  (List.range 16).map fun i =>
    ((block.getD (4 * i) 0) <<< 24) + ((block.getD (4 * i + 1) 0) <<< 16) +
    ((block.getD (4 * i + 2) 0) <<< 8) + (block.getD (4 * i + 3) 0)

/-- Extends the message schedule by `n` further words. -/
def extendSchedule : List Nat → Nat → List Nat
  | w, 0 => w
  | w, n + 1 =>
    extendSchedule
      (w ++ [w32 (smallSigma1 (w.getD (w.length - 2) 0) + w.getD (w.length - 7) 0 +
                  smallSigma0 (w.getD (w.length - 15) 0) + w.getD (w.length - 16) 0)]) n

/-- One round of the SHA-256 compression function. -/
def compressStep (st : Hash8) (kw : Nat × Nat) : Hash8 :=
  let t1 := w32 (st.h + bigSigma1 st.e + chF st.e st.f st.g + kw.1 + kw.2)
  let t2 := w32 (bigSigma0 st.a + majF st.a st.b st.c)
  ⟨w32 (t1 + t2), st.a, st.b, st.c, w32 (st.d + t1), st.e, st.f, st.g⟩

/-- Processes one 64-byte block. -/
def processBlock (H : Hash8) (block : Bytes) : Hash8 :=
  let ws := extendSchedule (blockWords block) 48
  let st := (sha256K.zip ws).foldl compressStep H
  ⟨w32 (H.a + st.a), w32 (H.b + st.b), w32 (H.c + st.c), w32 (H.d + st.d),
   w32 (H.e + st.e), w32 (H.f + st.f), w32 (H.g + st.g), w32 (H.h + st.h)⟩

/-- Digest bytes of a final hash state. -/
def digestBytes (H : Hash8) : Bytes :=
  be32bytes H.a ++ be32bytes H.b ++ be32bytes H.c ++ be32bytes H.d ++
  be32bytes H.e ++ be32bytes H.f ++ be32bytes H.g ++ be32bytes H.h

/-- SHA-256 of a byte list, modelling Go `sha256.Sum256`. -/
def sha256 (msg : Bytes) : Bytes :=
  digestBytes ((chunks64 (sha256pad msg)).foldl processBlock initH8)

/-! ## Lowercase-hex rendering (model of Go `fmt.Sprintf("%x", digest)`) -/

/-- Lowercase hexadecimal alphabet. -/
def hexAlphabet : GoStr := "0123456789abcdef".toList

/-- Hex digit for a value below 16. -/
def hexDigit (n : Nat) : Char := hexAlphabet.getD n '0'

/-- Two lowercase hex digits of a byte. -/
def hexByte (b : Nat) : GoStr := [hexDigit (b / 16), hexDigit (b % 16)]

/-- Lowercase hex string of a byte list. -/
def hexString : Bytes → GoStr
  | [] => []
  | b :: rest => hexByte b ++ hexString rest

/-! ## Protobuf message model

A message is modelled by its schema (field names with their kinds, in
declaration order) together with an association list of set fields.  The
association list stands for the in-memory representation: its order and
whether a field at its default value is present or absent are non-semantic. -/

/-- Field kinds used by the fixtures: proto3 string and int32 fields. -/
inductive FKind where
  | fstr : FKind
  | fint : FKind
deriving DecidableEq, Repr

/-- Field values. -/
inductive FVal where
  | vstr : GoStr → FVal
  | vint : Int → FVal
deriving DecidableEq, Repr

/-- Proto3 zero value of a field kind. -/
def FKind.defaultVal : FKind → FVal
  | .fstr => .vstr []
  | .fint => .vint 0

/-- Protobuf message: schema plus currently set fields. -/
structure ProtoMessage where
  schema : List (GoStr × FKind)
  fields : List (GoStr × FVal)
deriving DecidableEq, Repr

/-- Semantic value of a field: the stored value, or the proto3 default when
the field is unset in the representation. -/
def valueOf (m : ProtoMessage) (name : GoStr) (k : FKind) : FVal :=
  (goLookup m.fields name).getD k.defaultVal

/-- JSON escaping of one character (subset used by the fixtures). -/
def escapeChar (c : Char) : GoStr :=
  if c = '"' then ['\\', '"']
  else if c = '\\' then ['\\', '\\']
  else if c = '\n' then ['\\', 'n']
  else if c = '\t' then ['\\', 't']
  else if c = '\r' then ['\\', 'r']
  else [c]

/-- JSON escaping of a string. -/
def escapeJson (s : GoStr) : GoStr := s.flatMap escapeChar

/-- JSON rendering of a field value. -/
def renderFVal : FVal → GoStr
  | .vstr s => '"' :: (escapeJson s ++ ['"'])
  | .vint n => (toString n).toList

/-- Rendering of one schema field as a JSON member, reading the semantic value
of the message at that field. -/
def renderField (m : ProtoMessage) (nk : GoStr × FKind) : GoStr :=
  '"' :: (escapeJson nk.1 ++ '"' :: ':' :: renderFVal (valueOf m nk.1 nk.2))

/-- Canonical protojson serialization of a message, modelling
`protojson.MarshalOptions{EmitUnpopulated: true}.Marshal`: every schema field
is emitted, in schema declaration order, with unset fields at their proto3
default.  The deterministic-whitespace detail of the Go library is constant
within a process and is modelled as the compact form. -/
def renderCanonical (m : ProtoMessage) : GoStr :=
  '{' :: (List.intercalate [','] (m.schema.map (renderField m)) ++ ['}'])

/-- Marshal step of `GetResponse` (lines 44-49 of the Go file).  For the
well-formed messages of this model the protojson marshaler cannot fail, so the
error branch of the Go code is modelled by an `Except` that is always `ok`. -/
def protojsonMarshal (req : ProtoMessage) : Except GoStr Bytes :=
  .ok (strBytes (renderCanonical req))

/-- Fingerprint of a request: lowercase hex of the SHA-256 digest of its
canonical protojson serialization (line 50 of the Go file). -/
def fingerprint (req : ProtoMessage) : GoStr :=
  hexString (sha256 (strBytes (renderCanonical req)))

/-! ## JSON parsing (model of `encoding/json` and `protojson.Unmarshal`) -/

/-- Flat JSON values appearing in the fixtures. -/
inductive JVal where
  | jstr : GoStr → JVal
  | jnum : Int → JVal
deriving DecidableEq, Repr, Inhabited

/-- Drops leading JSON whitespace. -/
def skipWs : List Char → List Char
  | c :: rest =>
    if c = ' ' ∨ c = '\t' ∨ c = '\n' ∨ c = '\r' then skipWs rest else c :: rest
  | [] => []

/-- Unescaping of a character following a backslash. -/
def unescape (e : Char) : Option Char :=
  if e = '"' ∨ e = '\\' ∨ e = '/' then some e
  else if e = 'n' then some '\n'
  else if e = 't' then some '\t'
  else if e = 'r' then some '\r'
  else if e = 'b' then some (Char.ofNat 8)
  else if e = 'f' then some (Char.ofNat 12)
  else none

/-- Parses the characters of a JSON string after its opening quote, returning
the string content and the rest of the input. -/
def parseStrChars : List Char → Option (GoStr × List Char)
  | [] => none
  | '"' :: rest => some ([], rest)
  | '\\' :: rest =>
    match rest with
    | [] => none
    | e :: rest2 =>
      match unescape e with
      | none => none
      | some c => (parseStrChars rest2).map fun p => (c :: p.1, p.2)
  | c :: rest => (parseStrChars rest).map fun p => (c :: p.1, p.2)

/-- Parses a JSON string literal including its opening quote. -/
def parseJString : List Char → Option (GoStr × List Char)
  | '"' :: rest => parseStrChars rest
  | _ => none

/-- Numeric value of a list of decimal digits. -/
def digitsToNat (ds : List Char) : Nat :=
  ds.foldl (fun a c => 10 * a + (c.toNat - 48)) 0

/-- Parses a JSON integer literal. -/
def parseJNumber (l : List Char) : Option (Int × List Char) :=
  match l with
  | '-' :: rest =>
    if (rest.takeWhile Char.isDigit) = [] then none
    else some (-(digitsToNat (rest.takeWhile Char.isDigit) : Int),
               rest.dropWhile Char.isDigit)
  | _ =>
    if (l.takeWhile Char.isDigit) = [] then none
    else some ((digitsToNat (l.takeWhile Char.isDigit) : Int),
               l.dropWhile Char.isDigit)

/-- Parses a flat JSON value: a string or an integer. -/
def parseJValue (l : List Char) : Option (JVal × List Char) :=
  match parseJString l with
  | some p => some (.jstr p.1, p.2)
  | none =>
    match parseJNumber l with
    | some p => some (.jnum p.1, p.2)
    | none => none

/-- Parses the members of a JSON object, positioned at the first key; the
fuel bounds the number of members. -/
def parseMembers : Nat → List Char → Option (List (GoStr × JVal) × List Char)
  | 0, _ => none
  | fuel + 1, l =>
    match parseJString (skipWs l) with
    | none => none
    | some (key, r1) =>
      match skipWs r1 with
      | ':' :: r2 =>
        match parseJValue (skipWs r2) with
        | none => none
        | some (v, r3) =>
          match skipWs r3 with
          | ',' :: r4 => (parseMembers fuel r4).map fun p => ((key, v) :: p.1, p.2)
          | '}' :: r4 => some ([(key, v)], r4)
          | _ => none
      | _ => none

/-- Parses a whole document as one flat JSON object, requiring the input to be
fully consumed up to trailing whitespace. -/
def parseTopObject (l : List Char) : Option (List (GoStr × JVal)) :=
  match skipWs l with
  | '{' :: r =>
    match skipWs r with
    | '}' :: r2 => if skipWs r2 = [] then some [] else none
    | _ =>
      match parseMembers (r.length + 1) r with
      | none => none
      | some (ps, rest) => if skipWs rest = [] then some ps else none
  | _ => none

/-- Tests whether a document is the JSON literal `null` (with surrounding
whitespace), which `encoding/json` accepts as a no-op for a map target. -/
def isNullDoc (l : List Char) : Bool :=
  match skipWs l with
  | 'n' :: 'u' :: 'l' :: 'l' :: rest => (skipWs rest).isEmpty
  | _ => false

/-- Tests whether a flat JSON value is a string. -/
def isJStr : JVal → Bool
  | .jstr _ => true
  | .jnum _ => false

/-- Folds parsed members into a string-to-string map, failing on a non-string
value as `encoding/json` does for a `map[string]string` target. -/
def allStrings : List (GoStr × JVal) → List (GoStr × GoStr) →
    Except GoStr (List (GoStr × GoStr))
  | [], acc => .ok acc
  | (k, .jstr s) :: rest, acc => allStrings rest (setAssoc acc k s)
  | (_, .jnum _) :: _, _ =>
    .error "json: cannot unmarshal number into Go value of type string".toList

/-- Model of `json.Unmarshal(data, &mapping)` for `map[string]string`: accepts
a flat JSON object with string values (duplicate keys last-write-wins), and
the JSON literal `null`, which leaves the map nil. -/
def jsonUnmarshalStringMap (data : Bytes) : Except GoStr (List (GoStr × GoStr)) :=
  if isNullDoc (bytesChars data) then .ok []
  else
    match parseTopObject (bytesChars data) with
    | none => .error "invalid character in JSON input".toList
    | some pairs => allStrings pairs []

/-- Decidable test following the words of the spec: the document parses as a
flat JSON object of string-to-string pairs. -/
def parsesAsFlatStringObject (data : Bytes) : Bool :=
  match parseTopObject (bytesChars data) with
  | none => false
  | some pairs => pairs.all fun kv => isJStr kv.2

/-- Converts parsed JSON members into message fields against a schema, as
`protojson.Unmarshal` does: unknown fields, duplicate fields and kind
mismatches are errors. -/
def setFields (schema : List (GoStr × FKind)) :
    List (GoStr × JVal) → List (GoStr × FVal) → Except GoStr (List (GoStr × FVal))
  | [], acc => .ok acc
  | (k, v) :: rest, acc =>
    match goLookup schema k with
    | none => .error ("proto: unknown field ".toList ++ k)
    | some kind =>
      if (goLookup acc k).isSome then .error ("proto: duplicate field ".toList ++ k)
      else
        match kind, v with
        | .fstr, .jstr s => setFields schema rest (setAssoc acc k (.vstr s))
        | .fint, .jnum n => setFields schema rest (setAssoc acc k (.vint n))
        | _, _ => .error ("proto: invalid value for field ".toList ++ k)

/-- Model of `protojson.Unmarshal(data, m)`: parses a flat JSON object and
resets the target message to exactly the decoded fields.  The error value is
the decoder's own message; `protojson` is never given the artifact file name,
so no error it produces can mention one. -/
def protojsonUnmarshal (data : Bytes) (m : ProtoMessage) : Except GoStr ProtoMessage :=
  match parseTopObject (bytesChars data) with
  | none => .error "proto: syntax error: unexpected token".toList
  | some pairs =>
    match setFields m.schema pairs [] with
    | .error e => .error e
    | .ok fl => .ok ⟨m.schema, fl⟩

/-! ## Path handling (models of `path/filepath` on a slash-separated system) -/

/-- Model of `filepath.Base`: the last element of the path after removing
trailing separators; "." for the empty path, "/" for an all-separator path. -/
def goBase (p : GoStr) : GoStr :=
  if p = [] then ['.']
  else
    if p.reverse.dropWhile (fun c => c = '/') = [] then ['/']
    else
      ((p.reverse.dropWhile (fun c => c = '/')).takeWhile
        (fun c => c ≠ '/')).reverse

/-- Model of `filepath.Ext`: the suffix beginning at the final dot in the
final slash-separated element of the path; empty if there is no dot. -/
def goExt (p : GoStr) : GoStr :=
  if '.' ∈ p.reverse.takeWhile (fun c => c ≠ '/') then
    (((p.reverse.takeWhile (fun c => c ≠ '/')).takeWhile
        (fun c => c ≠ '.')) ++ ['.']).reverse
  else []

/-- Model of `inferTypeName` (lines 82-85 of the Go file): the base name of
the response file with its extension sliced off. -/
def inferTypeName (filename : GoStr) : GoStr :=
  (goBase filename).take
    ((goBase filename).length - (goExt (goBase filename)).length)

/-- Model of `filepath.Join(dir, name)` for a clean nonempty directory and a
clean relative file name, the only shapes this program joins. -/
def goJoin (dir name : GoStr) : GoStr := dir ++ '/' :: name

/-! ## Spec-side path vocabulary (for comparison with `inferTypeName`) -/

/-- Stated from the words of the spec: the final path component of a name,
its longest suffix containing no separator. -/
def finalPathComponent (s : GoStr) : GoStr :=
  (s.reverse.takeWhile (fun c => c ≠ '/')).reverse

/-- Stated from the words of the spec: the name with its file extension
stripped, everything from the final dot onward removed. -/
def stripExtension (s : GoStr) : GoStr :=
  if '.' ∈ s then ((s.reverse.dropWhile (fun c => c ≠ '.')).drop 1).reverse else s

/-! ## Errors, world state and the registry operations -/

/-- Errors returned by `LoadRegistry` and `GetResponse`, with the payload each
Go error value actually carries. -/
inductive GError where
  | marshalErr : GoStr → GError
  | notFound : GoStr → GError
  | readErr : GoStr → GoStr → GoStr → GError
  | unknownType : GoStr → GError
  | decodeErr : GoStr → GError
  | jsonErr : GoStr → GError
deriving DecidableEq, Repr

/-- Rendered message of each error, following the Go `Error()` strings:
`notFound` and `unknownType` come from `fmt.Errorf` at lines 57 and 69,
`readErr` is an `fs.PathError` from `os.ReadFile`, and `decodeErr` and
`jsonErr` are returned verbatim from the decoders. -/
def GError.message : GError → GoStr
  | .marshalErr m => m
  | .notFound h => "no mock response found for hash: ".toList ++ h
  | .readErr op p c => op ++ ' ' :: (p ++ ':' :: ' ' :: c)
  | .unknownType t => "unknown response type: ".toList ++ t
  | .decodeErr m => m
  | .jsonErr m => m

/-- Static part of the registry (lines 22-27): the mapping table, the response
directory and the type registry.  Prototype messages are held by reference
into the heap, as Go holds them by pointer. -/
structure MockRegistry where
  Mapping : List (GoStr × GoStr)
  ResponseDir : GoStr
  ResponseTypes : List (GoStr × Ref)
deriving DecidableEq, Repr

/-- Mutable state around a call: the message heap, the next fresh reference
and the response cache (the `sync.Map` of line 26, mapping fingerprints to
response references).  A freshly loaded registry starts with an empty cache. -/
structure World where
  heap : List (Ref × ProtoMessage)
  next : Ref
  cache : List (GoStr × Ref)
deriving DecidableEq, Repr

/-- Heap read with the zero message as default for dangling references. -/
def heapGet (h : List (Ref × ProtoMessage)) (r : Ref) : ProtoMessage :=
  (goLookup h r).getD ⟨[], []⟩

/-- Outcome of a call: a response reference or an error. -/
inductive CallOut where
  | ok : Ref → CallOut
  | err : GError → CallOut
deriving DecidableEq, Repr

/-- Result of a `GetResponse` call: the outcome, the world afterwards, and the
log of file paths read during the call. -/
structure CallResult where
  result : CallOut
  world : World
  reads : List GoStr
deriving DecidableEq, Repr

/-- File system: maps a path to its content, or to the cause string of a read
failure. -/
def Fs : Type := GoStr → Except GoStr Bytes

/-- Model of `MockRegistry.GetResponse` (lines 43-79 of the Go file), line by
line: marshal the request with `EmitUnpopulated`, hash it, consult the cache,
consult the mapping table, read the artifact file, infer the type name, look
up the prototype, clone it to a fresh reference, decode into the clone, store
it in the cache and return it. -/
def GetResponse (fs : Fs) (r : MockRegistry) (w : World) (req : ProtoMessage) :
    CallResult :=
  match protojsonMarshal req with
  | .error e => ⟨.err (.marshalErr e), w, []⟩
  | .ok jsonBytes =>
    match goLookup w.cache (hexString (sha256 jsonBytes)) with
    | some ref => ⟨.ok ref, w, []⟩
    | none =>
      match goLookup r.Mapping (hexString (sha256 jsonBytes)) with
      | none => ⟨.err (.notFound (hexString (sha256 jsonBytes))), w, []⟩
      | some responseFile =>
        match fs (goJoin r.ResponseDir responseFile) with
        | .error cause =>
          ⟨.err (.readErr "open".toList (goJoin r.ResponseDir responseFile) cause),
           w, [goJoin r.ResponseDir responseFile]⟩
        | .ok respData =>
          match goLookup r.ResponseTypes (inferTypeName responseFile) with
          | none =>
            ⟨.err (.unknownType (inferTypeName responseFile)), w,
             [goJoin r.ResponseDir responseFile]⟩
          | some templateRef =>
            match protojsonUnmarshal respData (heapGet w.heap templateRef) with
            | .error e =>
              ⟨.err (.decodeErr e),
               ⟨setAssoc w.heap w.next (heapGet w.heap templateRef), w.next + 1,
                w.cache⟩,
               [goJoin r.ResponseDir responseFile]⟩
            | .ok decoded =>
              ⟨.ok w.next,
               ⟨setAssoc w.heap w.next decoded, w.next + 1,
                setAssoc w.cache (hexString (sha256 jsonBytes)) w.next⟩,
               [goJoin r.ResponseDir responseFile]⟩

/-- Model of `LoadRegistry` (lines 30-40 of the Go file): read the mapping
file, unmarshal it as a string-to-string map, and build the registry.  The
second component is the log of file paths read. -/
def LoadRegistry (fs : Fs) (mappingFilePath responseDir : GoStr)
    (responseTypes : List (GoStr × Ref)) :
    Except GError MockRegistry × List GoStr :=
  match fs mappingFilePath with
  | .error cause =>
    (.error (.readErr "open".toList mappingFilePath cause), [mappingFilePath])
  | .ok data =>
    match jsonUnmarshalStringMap data with
    | .error e => (.error (.jsonErr e), [mappingFilePath])
    | .ok mapping =>
      (.ok ⟨mapping, responseDir, responseTypes⟩, [mappingFilePath])

/-! ## Substring test and concrete scenarios used by witnesses -/

/-- Boolean test that one character list starts with another. -/
def strStartsWith : GoStr → GoStr → Bool
  | [], _ => true
  | _ :: _, [] => false
  | a :: as, b :: bs => (a == b) && strStartsWith as bs

/-- Boolean substring test, used to state which identifiers an error message
mentions. -/
def strContains (needle : GoStr) : GoStr → Bool
  | [] => needle.isEmpty
  | c :: rest => strStartsWith needle (c :: rest) || strContains needle rest

/-- Sample request with an int32 field left at its default and a set string
field. -/
def reqA : ProtoMessage :=
  ⟨[("id".toList, .fint), ("name".toList, .fstr)],
   [("name".toList, .vstr "Ada".toList)]⟩

/-- The same request content as `reqA` in a different representation: the
defaulted field is stored explicitly and the field order differs. -/
def reqB : ProtoMessage :=
  ⟨[("id".toList, .fint), ("name".toList, .fstr)],
   [("id".toList, .vint 0), ("name".toList, .vstr "Ada".toList)]⟩

/-- Prototype instance registered for type name "Widget". -/
def widgetProto : ProtoMessage := ⟨[("id".toList, .fint)], []⟩

/-- Response directory of the scenarios. -/
def dirA : GoStr := "testdata".toList

/-- Empty world: empty heap, empty cache. -/
def wEmpty : World := ⟨[], 0, []⟩

/-- World holding the "Widget" prototype at reference 0. -/
def wA : World := ⟨[(0, widgetProto)], 1, []⟩

/-- Registry with an empty mapping table. -/
def regEmpty : MockRegistry := ⟨[], dirA, []⟩

/-- Registry mapping the fingerprint of `reqA` to "Widget.json" with a
registered "Widget" prototype. -/
def regA : MockRegistry :=
  ⟨[(fingerprint reqA, "Widget.json".toList)], dirA, [("Widget".toList, 0)]⟩

/-- Registry mapping the fingerprint of `reqA` to "Ghost.json" while the type
registry has no "Ghost" entry. -/
def regGhost : MockRegistry :=
  ⟨[(fingerprint reqA, "Ghost.json".toList)], dirA, []⟩

/-- Well-formed artifact content for a "Widget". -/
def widgetBytes : Bytes := strBytes "\x7b\"id\":7\x7d".toList

/-- Malformed artifact content. -/
def badBytes : Bytes := strBytes "\x7boops".toList

/-- File system holding a decodable "Widget.json". -/
def fsA : Fs := fun p =>
  if p = goJoin dirA "Widget.json".toList then .ok widgetBytes
  else .error "no such file or directory".toList

/-- File system holding a malformed "Widget.json". -/
def fsBad : Fs := fun p =>
  if p = goJoin dirA "Widget.json".toList then .ok badBytes
  else .error "no such file or directory".toList

/-- File system holding a readable "Ghost.json". -/
def fsGhost : Fs := fun p =>
  if p = goJoin dirA "Ghost.json".toList then .ok (strBytes "\x7b\x7d".toList)
  else .error "no such file or directory".toList

/-- Path of the mapping configuration file in the loader scenarios. -/
def mappingPath : GoStr := "mock_mapping.json".toList

/-- Well-formed mapping file content. -/
def mappingBytes : Bytes := strBytes "\x7b\"k\":\"V.json\"\x7d".toList

/-- File system holding a well-formed mapping file. -/
def fsMapping : Fs := fun p =>
  if p = mappingPath then .ok mappingBytes
  else .error "no such file or directory".toList

/-- File system whose mapping file holds the JSON literal `null`. -/
def fsNullMapping : Fs := fun p =>
  if p = mappingPath then .ok (strBytes "null".toList)
  else .error "no such file or directory".toList

/-! ## Association-list lemmas -/

theorem goLookup_setAssoc_self {A B : Type} [DecidableEq A]
    (l : List (A × B)) (k : A) (v : B) : goLookup (setAssoc l k v) k = some v := by
  induction l with
  | nil => simp [setAssoc, goLookup]
  | cons kv rest ih =>
    obtain ⟨a, b⟩ := kv
    by_cases ha : a = k
    · subst ha; simp [setAssoc, goLookup]
    · simp [setAssoc, ha, goLookup, ih]

theorem goLookup_setAssoc_ne {A B : Type} [DecidableEq A]
    (l : List (A × B)) (k k' : A) (v : B) (h : k ≠ k') :
    goLookup (setAssoc l k v) k' = goLookup l k' := by
  induction l with
  | nil => simp [setAssoc, goLookup, h]
  | cons kv rest ih =>
    obtain ⟨a, b⟩ := kv
    by_cases ha : a = k
    · subst ha; simp [setAssoc, goLookup, h]
    · simp [setAssoc, ha, goLookup, ih]

theorem heapGet_setAssoc_self (h : List (Ref × ProtoMessage)) (k : Ref)
    (v : ProtoMessage) : heapGet (setAssoc h k v) k = v := by
  simp [heapGet, goLookup_setAssoc_self]

theorem heapGet_setAssoc_ne (h : List (Ref × ProtoMessage)) (k k' : Ref)
    (v : ProtoMessage) (hne : k ≠ k') :
    heapGet (setAssoc h k v) k' = heapGet h k' := by
  simp [heapGet, goLookup_setAssoc_ne _ _ _ _ hne]

/-! ## Hex-rendering lemmas -/

theorem hexDigit_mem (n : Nat) : hexDigit n ∈ hexAlphabet := by
  unfold hexDigit
  by_cases h : n < hexAlphabet.length
  · rw [List.getD_eq_getElem _ _ h]
    exact List.getElem_mem h
  · rw [List.getD_eq_default _ _ (Nat.le_of_not_lt h)]
    decide

theorem hexString_length (bs : Bytes) : (hexString bs).length = 2 * bs.length := by
  induction bs with
  | nil => rfl
  | cons b rest ih =>
    simp only [hexString, hexByte, List.length_append, List.length_cons,
      List.length_nil, ih]
    omega

theorem hexString_mem (bs : Bytes) (c : Char) (h : c ∈ hexString bs) :
    c ∈ hexAlphabet := by
  induction bs with
  | nil => simp [hexString] at h
  | cons b rest ih =>
    simp only [hexString, hexByte, List.mem_append, List.mem_cons,
      List.not_mem_nil, or_false] at h
    rcases h with (h | h) | h
    · exact h ▸ hexDigit_mem _
    · exact h ▸ hexDigit_mem _
    · exact ih h

theorem sha256_length (msg : Bytes) : (sha256 msg).length = 32 := by
  simp [sha256, digestBytes, be32bytes]

/-! ## Branch-computation lemmas for GetResponse -/

theorem getResponse_hit (fs : Fs) (r : MockRegistry) (w : World)
    (req : ProtoMessage) (ref : Ref)
    (hc : goLookup w.cache (fingerprint req) = some ref) :
    GetResponse fs r w req = ⟨.ok ref, w, []⟩ := by
  simp only [fingerprint] at hc
  simp only [GetResponse, protojsonMarshal, hc]

theorem getResponse_notFound (fs : Fs) (r : MockRegistry) (w : World)
    (req : ProtoMessage)
    (hc : goLookup w.cache (fingerprint req) = none)
    (hm : goLookup r.Mapping (fingerprint req) = none) :
    GetResponse fs r w req = ⟨.err (.notFound (fingerprint req)), w, []⟩ := by
  simp only [fingerprint] at hc hm ⊢
  simp only [GetResponse, protojsonMarshal, hc, hm]

theorem getResponse_readErr (fs : Fs) (r : MockRegistry) (w : World)
    (req : ProtoMessage) (file cause : GoStr)
    (hc : goLookup w.cache (fingerprint req) = none)
    (hm : goLookup r.Mapping (fingerprint req) = some file)
    (hr : fs (goJoin r.ResponseDir file) = .error cause) :
    GetResponse fs r w req =
      ⟨.err (.readErr "open".toList (goJoin r.ResponseDir file) cause), w,
       [goJoin r.ResponseDir file]⟩ := by
  simp only [fingerprint] at hc hm
  simp only [GetResponse, protojsonMarshal, hc, hm, hr]

theorem getResponse_unknownType (fs : Fs) (r : MockRegistry) (w : World)
    (req : ProtoMessage) (file : GoStr) (data : Bytes)
    (hc : goLookup w.cache (fingerprint req) = none)
    (hm : goLookup r.Mapping (fingerprint req) = some file)
    (hr : fs (goJoin r.ResponseDir file) = .ok data)
    (ht : goLookup r.ResponseTypes (inferTypeName file) = none) :
    GetResponse fs r w req =
      ⟨.err (.unknownType (inferTypeName file)), w,
       [goJoin r.ResponseDir file]⟩ := by
  simp only [fingerprint] at hc hm
  simp only [GetResponse, protojsonMarshal, hc, hm, hr, ht]

theorem getResponse_decodeErr (fs : Fs) (r : MockRegistry) (w : World)
    (req : ProtoMessage) (file : GoStr) (data : Bytes) (tref : Ref) (m : GoStr)
    (hc : goLookup w.cache (fingerprint req) = none)
    (hm : goLookup r.Mapping (fingerprint req) = some file)
    (hr : fs (goJoin r.ResponseDir file) = .ok data)
    (ht : goLookup r.ResponseTypes (inferTypeName file) = some tref)
    (hu : protojsonUnmarshal data (heapGet w.heap tref) = .error m) :
    GetResponse fs r w req =
      ⟨.err (.decodeErr m),
       ⟨setAssoc w.heap w.next (heapGet w.heap tref), w.next + 1, w.cache⟩,
       [goJoin r.ResponseDir file]⟩ := by
  simp only [fingerprint] at hc hm
  simp only [GetResponse, protojsonMarshal, hc, hm, hr, ht, hu]

theorem getResponse_success (fs : Fs) (r : MockRegistry) (w : World)
    (req : ProtoMessage) (file : GoStr) (data : Bytes) (tref : Ref)
    (decoded : ProtoMessage)
    (hc : goLookup w.cache (fingerprint req) = none)
    (hm : goLookup r.Mapping (fingerprint req) = some file)
    (hr : fs (goJoin r.ResponseDir file) = .ok data)
    (ht : goLookup r.ResponseTypes (inferTypeName file) = some tref)
    (hu : protojsonUnmarshal data (heapGet w.heap tref) = .ok decoded) :
    GetResponse fs r w req =
      ⟨.ok w.next,
       ⟨setAssoc w.heap w.next decoded, w.next + 1,
        setAssoc w.cache (fingerprint req) w.next⟩,
       [goJoin r.ResponseDir file]⟩ := by
  simp only [fingerprint] at hc hm ⊢
  simp only [GetResponse, protojsonMarshal, hc, hm, hr, ht, hu]

/-- Exhaustive case analysis of a `GetResponse` call into its six behaviours. -/
theorem getResponse_inv (fs : Fs) (r : MockRegistry) (w : World)
    (req : ProtoMessage) :
    (∃ ref, goLookup w.cache (fingerprint req) = some ref ∧
       GetResponse fs r w req = ⟨.ok ref, w, []⟩) ∨
    (goLookup w.cache (fingerprint req) = none ∧
      ((goLookup r.Mapping (fingerprint req) = none ∧
         GetResponse fs r w req = ⟨.err (.notFound (fingerprint req)), w, []⟩) ∨
       (∃ file, goLookup r.Mapping (fingerprint req) = some file ∧
         ((∃ cause, fs (goJoin r.ResponseDir file) = .error cause ∧
            GetResponse fs r w req =
              ⟨.err (.readErr "open".toList (goJoin r.ResponseDir file) cause),
               w, [goJoin r.ResponseDir file]⟩) ∨
          (∃ data, fs (goJoin r.ResponseDir file) = .ok data ∧
            ((goLookup r.ResponseTypes (inferTypeName file) = none ∧
               GetResponse fs r w req =
                 ⟨.err (.unknownType (inferTypeName file)), w,
                  [goJoin r.ResponseDir file]⟩) ∨
             (∃ tref, goLookup r.ResponseTypes (inferTypeName file) = some tref ∧
               ((∃ m, protojsonUnmarshal data (heapGet w.heap tref) = .error m ∧
                  GetResponse fs r w req =
                    ⟨.err (.decodeErr m),
                     ⟨setAssoc w.heap w.next (heapGet w.heap tref), w.next + 1,
                      w.cache⟩,
                     [goJoin r.ResponseDir file]⟩) ∨
                (∃ d, protojsonUnmarshal data (heapGet w.heap tref) = .ok d ∧
                  GetResponse fs r w req =
                    ⟨.ok w.next,
                     ⟨setAssoc w.heap w.next d, w.next + 1,
                      setAssoc w.cache (fingerprint req) w.next⟩,
                     [goJoin r.ResponseDir file]⟩))))))))) := by
  cases hc : goLookup w.cache (fingerprint req) with
  | some ref => exact .inl ⟨ref, rfl, getResponse_hit fs r w req ref hc⟩
  | none =>
    refine .inr ⟨rfl, ?_⟩
    cases hm : goLookup r.Mapping (fingerprint req) with
    | none => exact .inl ⟨rfl, getResponse_notFound fs r w req hc hm⟩
    | some file =>
      refine .inr ⟨file, rfl, ?_⟩
      cases hr : fs (goJoin r.ResponseDir file) with
      | error cause =>
        exact .inl ⟨cause, rfl, getResponse_readErr fs r w req file cause hc hm hr⟩
      | ok data =>
        refine .inr ⟨data, rfl, ?_⟩
        cases ht : goLookup r.ResponseTypes (inferTypeName file) with
        | none =>
          exact .inl ⟨rfl, getResponse_unknownType fs r w req file data hc hm hr ht⟩
        | some tref =>
          refine .inr ⟨tref, rfl, ?_⟩
          cases hu : protojsonUnmarshal data (heapGet w.heap tref) with
          | error m =>
            exact .inl ⟨m, rfl,
              getResponse_decodeErr fs r w req file data tref m hc hm hr ht hu⟩
          | ok d =>
            exact .inr ⟨d, rfl,
              getResponse_success fs r w req file data tref d hc hm hr ht hu⟩

/-! ## Claim theorems -/

/-- Claim C1: the fingerprint computed by GetResponse is deterministic.  Two
requests of the same message type whose semantic field values agree (fields at
their default value included) have equal fingerprints, regardless of the
order of their underlying field representations or of whether defaulted
fields are stored explicitly.  The fingerprint is a pure function of request
content; the embedding computes it with no I/O, randomness or process
state. -/
theorem fingerprint_deterministic (r1 r2 : ProtoMessage)
    (hschema : r1.schema = r2.schema)
    (hvals : ∀ nk ∈ r1.schema, valueOf r1 nk.1 nk.2 = valueOf r2 nk.1 nk.2) :
    fingerprint r1 = fingerprint r2 := by
  have hmap : r1.schema.map (renderField r1) = r1.schema.map (renderField r2) :=
    List.map_congr_left fun nk hnk => by
      unfold renderField
      rw [hvals nk hnk]
  have hrender : renderCanonical r1 = renderCanonical r2 := by
    unfold renderCanonical
    rw [← hschema, hmap]
  unfold fingerprint
  rw [hrender]

/-- Witness for C1: two concrete representations of the same request content,
one storing the defaulted int32 field explicitly and in a different order,
receive the same fingerprint. -/
theorem fingerprint_deterministic_witness :
    (reqA.schema = reqB.schema ∧
     ∀ nk ∈ reqA.schema, valueOf reqA nk.1 nk.2 = valueOf reqB nk.1 nk.2) ∧
    fingerprint reqA = fingerprint reqB :=
  ⟨⟨rfl, by decide⟩, fingerprint_deterministic reqA reqB rfl (by decide)⟩

/-- Claim C9: for every request, the computed fingerprint is the
lowercase-hexadecimal rendering of the SHA-256 digest of the request's
canonical serialization, hence a 64-character string over the lowercase hex
alphabet. -/
theorem fingerprint_hex_shape (req : ProtoMessage) :
    fingerprint req = hexString (sha256 (strBytes (renderCanonical req))) ∧
    (fingerprint req).length = 64 ∧
    ∀ c ∈ fingerprint req, c ∈ hexAlphabet := by
  refine ⟨rfl, ?_, ?_⟩
  · show (hexString (sha256 (strBytes (renderCanonical req)))).length = 64
    rw [hexString_length, sha256_length]
  · intro c hc
    exact hexString_mem _ c hc

/-- Claim C3: on a fingerprint that is neither cached nor present in the
mapping table, GetResponse fails with the not-found error carrying the
fingerprint, leaves the world unchanged and performs no file read. -/
theorem missing_mapping_not_found (fs : Fs) (r : MockRegistry) (w : World)
    (req : ProtoMessage)
    (hc : goLookup w.cache (fingerprint req) = none)
    (hm : goLookup r.Mapping (fingerprint req) = none) :
    GetResponse fs r w req = ⟨.err (.notFound (fingerprint req)), w, []⟩ ∧
    GError.message (.notFound (fingerprint req)) =
      "no mock response found for hash: ".toList ++ fingerprint req :=
  ⟨getResponse_notFound fs r w req hc hm, rfl⟩

/-- Witness for C3: a concrete request against an empty mapping table fails
with the not-found error and reads nothing. -/
theorem missing_mapping_not_found_witness :
    (goLookup wEmpty.cache (fingerprint reqA) = none ∧
     goLookup regEmpty.Mapping (fingerprint reqA) = none) ∧
    GetResponse fsGhost regEmpty wEmpty reqA =
      ⟨.err (.notFound (fingerprint reqA)), wEmpty, []⟩ :=
  ⟨⟨rfl, rfl⟩, (missing_mapping_not_found fsGhost regEmpty wEmpty reqA rfl rfl).1⟩

/-- Claim C10: GetResponse is atomic with respect to the cache on failure:
every call that returns an error leaves the response cache unchanged, so an
entry is stored only by a fully successful decode. -/
theorem error_leaves_cache_unchanged (fs : Fs) (r : MockRegistry) (w : World)
    (req : ProtoMessage) (e : GError)
    (h : (GetResponse fs r w req).result = .err e) :
    (GetResponse fs r w req).world.cache = w.cache := by
  rcases getResponse_inv fs r w req with ⟨ref, _, heq⟩ | ⟨_, h2⟩
  · rw [heq] at h; simp at h
  · rcases h2 with ⟨_, heq⟩ | ⟨file, _, h3⟩
    · rw [heq]
    · rcases h3 with ⟨cause, _, heq⟩ | ⟨data, _, h4⟩
      · rw [heq]
      · rcases h4 with ⟨_, heq⟩ | ⟨tref, _, h5⟩
        · rw [heq]
        · rcases h5 with ⟨m, _, heq⟩ | ⟨d, _, heq⟩
          · rw [heq]
          · rw [heq] at h; simp at h

/-- Claim C4: for sequential fingerprint-equal requests where the first call
succeeds, the second call is a pure cache hit: it returns the same response
(hence a content-equal one), changes nothing and performs no artifact read. -/
theorem cache_reuse_no_read (fs : Fs) (r : MockRegistry) (w : World)
    (req1 req2 : ProtoMessage) (ref : Ref)
    (h1 : (GetResponse fs r w req1).result = .ok ref)
    (hfp : fingerprint req2 = fingerprint req1) :
    GetResponse fs r (GetResponse fs r w req1).world req2 =
      ⟨.ok ref, (GetResponse fs r w req1).world, []⟩ := by
  have hc : goLookup (GetResponse fs r w req1).world.cache (fingerprint req2)
      = some ref := by
    rw [hfp]
    rcases getResponse_inv fs r w req1 with ⟨ref', hc', heq⟩ | ⟨_, h2⟩
    · rw [heq] at h1 ⊢
      simp only [] at h1
      have : ref' = ref := by simpa using h1
      rw [← this]
      exact hc'
    · rcases h2 with ⟨_, heq⟩ | ⟨file, _, h3⟩
      · rw [heq] at h1; simp at h1
      · rcases h3 with ⟨cause, _, heq⟩ | ⟨data, _, h4⟩
        · rw [heq] at h1; simp at h1
        · rcases h4 with ⟨_, heq⟩ | ⟨tref, _, h5⟩
          · rw [heq] at h1; simp at h1
          · rcases h5 with ⟨m, _, heq⟩ | ⟨d, _, heq⟩
            · rw [heq] at h1; simp at h1
            · rw [heq] at h1 ⊢
              have : w.next = ref := by simpa using h1
              rw [← this]
              exact goLookup_setAssoc_self _ _ _
  exact getResponse_hit fs r (GetResponse fs r w req1).world req2 ref hc

/-- Claim C5: GetResponse never decodes artifact bytes into the shared
prototype.  Every successful call leaves every prototype instance of the type
registry unchanged on the heap, and when the call actually decodes (a cache
miss), the returned response is a fresh reference distinct from every
prototype reference, whose content is the decode of the artifact bytes into a
clone of the resolved prototype's content. -/
theorem prototype_not_mutated (fs : Fs) (r : MockRegistry) (w : World)
    (req : ProtoMessage) (ref : Ref)
    (hwf : ∀ nr ∈ r.ResponseTypes, nr.2 < w.next)
    (h : (GetResponse fs r w req).result = .ok ref) :
    (∀ nr ∈ r.ResponseTypes,
       heapGet (GetResponse fs r w req).world.heap nr.2 = heapGet w.heap nr.2) ∧
    (goLookup w.cache (fingerprint req) = none →
       ref = w.next ∧
       (∀ nr ∈ r.ResponseTypes, ref ≠ nr.2) ∧
       (∃ file data tref,
         goLookup r.Mapping (fingerprint req) = some file ∧
         fs (goJoin r.ResponseDir file) = .ok data ∧
         goLookup r.ResponseTypes (inferTypeName file) = some tref ∧
         protojsonUnmarshal data (heapGet w.heap tref) =
           .ok (heapGet (GetResponse fs r w req).world.heap ref))) := by
  rcases getResponse_inv fs r w req with ⟨ref', hc', heq⟩ | ⟨hc', h2⟩
  · constructor
    · intro nr _
      rw [heq]
    · intro hmiss
      rw [hmiss] at hc'
      simp at hc'
  · rcases h2 with ⟨_, heq⟩ | ⟨file, hm, h3⟩
    · rw [heq] at h; simp at h
    · rcases h3 with ⟨cause, _, heq⟩ | ⟨data, hr, h4⟩
      · rw [heq] at h; simp at h
      · rcases h4 with ⟨_, heq⟩ | ⟨tref, ht, h5⟩
        · rw [heq] at h; simp at h
        · rcases h5 with ⟨m, _, heq⟩ | ⟨d, hu, heq⟩
          · rw [heq] at h; simp at h
          · rw [heq] at h
            have hnr : w.next = ref := by simpa using h
            constructor
            · intro nr hnr2
              rw [heq]
              exact heapGet_setAssoc_ne _ _ _ _ (Nat.ne_of_gt (hwf nr hnr2))
            · intro _
              refine ⟨hnr.symm, fun nr hnr2 => ?_, file, data, tref, hm, hr, ht, ?_⟩
              · rw [← hnr]
                exact Nat.ne_of_gt (hwf nr hnr2)
              · rw [heq, ← hnr]
                show protojsonUnmarshal data (heapGet w.heap tref) =
                  .ok (heapGet (setAssoc w.heap w.next d) w.next)
                rw [heapGet_setAssoc_self]
                exact hu

/-- Claim C2 (amended): on a cache miss whose fingerprint maps to an artifact
whose derived type name is absent from the type registry, the artifact file
is read before the type lookup: when the read succeeds the call fails with
the unknown-type error after exactly one artifact read, and when the read
fails the call fails with the read error instead. -/
theorem unknown_type_after_artifact_read (fs : Fs) (r : MockRegistry)
    (w : World) (req : ProtoMessage) (file : GoStr)
    (hc : goLookup w.cache (fingerprint req) = none)
    (hm : goLookup r.Mapping (fingerprint req) = some file)
    (ht : goLookup r.ResponseTypes (inferTypeName file) = none) :
    (∀ data, fs (goJoin r.ResponseDir file) = .ok data →
       GetResponse fs r w req =
         ⟨.err (.unknownType (inferTypeName file)), w,
          [goJoin r.ResponseDir file]⟩) ∧
    (∀ cause, fs (goJoin r.ResponseDir file) = .error cause →
       GetResponse fs r w req =
         ⟨.err (.readErr "open".toList (goJoin r.ResponseDir file) cause), w,
          [goJoin r.ResponseDir file]⟩) :=
  ⟨fun data hr => getResponse_unknownType fs r w req file data hc hm hr ht,
   fun cause hr => getResponse_readErr fs r w req file cause hc hm hr⟩

set_option maxRecDepth 1000000 in
/-- Counterexample for C2: with "Ghost.json" mapped and readable but no
"Ghost" entry in the type registry, the call does fail with the unknown-type
error, yet an artifact file read is performed, contradicting the claim that
no artifact file read happens. -/
theorem unknown_type_reads_artifact_cex :
    (GetResponse fsGhost regGhost wEmpty reqA).result =
      .err (.unknownType "Ghost".toList) ∧
    (GetResponse fsGhost regGhost wEmpty reqA).reads =
      [goJoin dirA "Ghost.json".toList] := by
  constructor <;> decide

set_option maxRecDepth 1000000 in
/-- Witness for C2 (amended): the "Ghost.json" scenario instantiated. -/
theorem unknown_type_after_artifact_read_witness :
    (goLookup wEmpty.cache (fingerprint reqA) = none ∧
     goLookup regGhost.Mapping (fingerprint reqA) = some "Ghost.json".toList ∧
     goLookup regGhost.ResponseTypes (inferTypeName "Ghost.json".toList) = none ∧
     fsGhost (goJoin regGhost.ResponseDir "Ghost.json".toList) =
       .ok (strBytes "\x7b\x7d".toList)) ∧
    GetResponse fsGhost regGhost wEmpty reqA =
      ⟨.err (.unknownType (inferTypeName "Ghost.json".toList)), wEmpty,
       [goJoin regGhost.ResponseDir "Ghost.json".toList]⟩ :=
  ⟨⟨rfl, by decide, rfl, rfl⟩,
   (unknown_type_after_artifact_read fsGhost regGhost wEmpty reqA
       "Ghost.json".toList rfl (by decide) rfl).1 _ rfl⟩

/-- Claim C8 (amended): when the artifact bytes are malformed or mismatch the
resolved type's schema, the call fails with the decode error produced by the
JSON decoder, returned verbatim: its message is exactly the decoder's own
description and does not include the artifact name, and the cache is left
unchanged. -/
theorem decode_error_verbatim (fs : Fs) (r : MockRegistry) (w : World)
    (req : ProtoMessage) (file : GoStr) (data : Bytes) (tref : Ref) (m : GoStr)
    (hc : goLookup w.cache (fingerprint req) = none)
    (hm : goLookup r.Mapping (fingerprint req) = some file)
    (hr : fs (goJoin r.ResponseDir file) = .ok data)
    (ht : goLookup r.ResponseTypes (inferTypeName file) = some tref)
    (hu : protojsonUnmarshal data (heapGet w.heap tref) = .error m) :
    GetResponse fs r w req =
      ⟨.err (.decodeErr m),
       ⟨setAssoc w.heap w.next (heapGet w.heap tref), w.next + 1, w.cache⟩,
       [goJoin r.ResponseDir file]⟩ ∧
    GError.message (.decodeErr m) = m :=
  ⟨getResponse_decodeErr fs r w req file data tref m hc hm hr ht hu, rfl⟩

set_option maxRecDepth 1000000 in
/-- Counterexample for C8: a malformed "Widget.json" makes the call fail with
the decoder's raw syntax error, whose message contains neither the artifact
name "Widget.json", nor the request's fingerprint, nor the type name
"Widget" — it does not carry the artifact name. -/
theorem decode_error_lacks_artifact_name_cex :
    (GetResponse fsBad regA wA reqA).result =
      .err (.decodeErr "proto: syntax error: unexpected token".toList) ∧
    strContains "Widget.json".toList
      (GError.message
        (.decodeErr "proto: syntax error: unexpected token".toList)) = false ∧
    strContains (fingerprint reqA)
      (GError.message
        (.decodeErr "proto: syntax error: unexpected token".toList)) = false ∧
    strContains "Widget".toList
      (GError.message
        (.decodeErr "proto: syntax error: unexpected token".toList)) = false := by
  refine ⟨?_, ?_, ?_, ?_⟩ <;> decide

set_option maxRecDepth 1000000 in
/-- Witness for C8 (amended): the malformed "Widget.json" scenario
instantiated. -/
theorem decode_error_verbatim_witness :
    (goLookup wA.cache (fingerprint reqA) = none ∧
     goLookup regA.Mapping (fingerprint reqA) = some "Widget.json".toList ∧
     fsBad (goJoin regA.ResponseDir "Widget.json".toList) = .ok badBytes ∧
     goLookup regA.ResponseTypes (inferTypeName "Widget.json".toList) = some 0 ∧
     protojsonUnmarshal badBytes (heapGet wA.heap 0) =
       .error "proto: syntax error: unexpected token".toList) ∧
    (GetResponse fsBad regA wA reqA =
      ⟨.err (.decodeErr "proto: syntax error: unexpected token".toList),
       ⟨setAssoc wA.heap wA.next (heapGet wA.heap 0), wA.next + 1, wA.cache⟩,
       [goJoin regA.ResponseDir "Widget.json".toList]⟩ ∧
     GError.message (.decodeErr "proto: syntax error: unexpected token".toList) =
       "proto: syntax error: unexpected token".toList) :=
  ⟨⟨rfl, by decide, rfl, rfl, rfl⟩,
   decode_error_verbatim fsBad regA wA reqA "Widget.json".toList badBytes 0
     "proto: syntax error: unexpected token".toList rfl (by decide) rfl rfl rfl⟩

set_option maxRecDepth 1000000 in
/-- Witness for C10: the unknown-type failure on the "Ghost.json" scenario
leaves the (empty) cache unchanged. -/
theorem error_leaves_cache_unchanged_witness :
    (GetResponse fsGhost regGhost wEmpty reqA).result =
      .err (.unknownType "Ghost".toList) ∧
    (GetResponse fsGhost regGhost wEmpty reqA).world.cache = wEmpty.cache :=
  ⟨by decide,
   error_leaves_cache_unchanged fsGhost regGhost wEmpty reqA
     (.unknownType "Ghost".toList) (by decide)⟩

set_option maxRecDepth 1000000 in
/-- Witness for C4: after a successful first call on the "Widget.json"
scenario, a second call with the same request is a pure cache hit. -/
theorem cache_reuse_no_read_witness :
    ((GetResponse fsA regA wA reqA).result = .ok 1 ∧
     fingerprint reqA = fingerprint reqA) ∧
    GetResponse fsA regA (GetResponse fsA regA wA reqA).world reqA =
      ⟨.ok 1, (GetResponse fsA regA wA reqA).world, []⟩ :=
  ⟨⟨by decide, rfl⟩, cache_reuse_no_read fsA regA wA reqA reqA 1 (by decide) rfl⟩

set_option maxRecDepth 1000000 in
/-- Witness for C5: the successful "Widget.json" call leaves the "Widget"
prototype unchanged and returns a fresh reference. -/
theorem prototype_not_mutated_witness :
    ((∀ nr ∈ regA.ResponseTypes, nr.2 < wA.next) ∧
     (GetResponse fsA regA wA reqA).result = .ok 1) ∧
    ((∀ nr ∈ regA.ResponseTypes,
        heapGet (GetResponse fsA regA wA reqA).world.heap nr.2 =
          heapGet wA.heap nr.2) ∧
     (goLookup wA.cache (fingerprint reqA) = none →
        1 = wA.next ∧
        (∀ nr ∈ regA.ResponseTypes, 1 ≠ nr.2) ∧
        (∃ file data tref,
          goLookup regA.Mapping (fingerprint reqA) = some file ∧
          fsA (goJoin regA.ResponseDir file) = .ok data ∧
          goLookup regA.ResponseTypes (inferTypeName file) = some tref ∧
          protojsonUnmarshal data (heapGet wA.heap tref) =
            .ok (heapGet (GetResponse fsA regA wA reqA).world.heap 1)))) :=
  ⟨⟨by decide, by decide⟩,
   prototype_not_mutated fsA regA wA reqA 1 (by decide) (by decide)⟩

/-! ## Lemmas about path decomposition (claim C6) -/

theorem takeWhile_of_all {α : Type} (p : α → Bool) (l : List α)
    (h : ∀ a ∈ l, p a = true) : l.takeWhile p = l := by
  induction l with
  | nil => rfl
  | cons a t ih =>
    rw [List.takeWhile_cons, if_pos (h a (List.mem_cons_self a t)),
      ih fun b hb => h b (List.mem_cons_of_mem a hb)]

theorem dropWhile_mem_split {α : Type} [DecidableEq α] (l : List α) (a : α)
    (h : a ∈ l) :
    ∃ d, l.dropWhile (fun c => c ≠ a) = a :: d ∧
         l = l.takeWhile (fun c => c ≠ a) ++ a :: d := by
  induction l with
  | nil => simp at h
  | cons b t ih =>
    by_cases hb : b = a
    · subst hb
      refine ⟨t, ?_, ?_⟩
      · rw [List.dropWhile_cons, if_neg (by simp)]
      · rw [List.takeWhile_cons, if_neg (by simp), List.nil_append]
    · have ha : a ∈ t := by
        rcases List.mem_cons.mp h with h1 | h1
        · exact absurd h1.symm hb
        · exact h1
      obtain ⟨d, hd1, hd2⟩ := ih ha
      refine ⟨d, ?_, ?_⟩
      · rw [List.dropWhile_cons, if_pos (by simp [hb]), hd1]
      · rw [List.takeWhile_cons, if_pos (by simp [hb]), List.cons_append, ← hd2]

theorem finalPathComponent_no_slash (s : GoStr) : '/' ∉ finalPathComponent s := by
  intro hmem
  unfold finalPathComponent at hmem
  rw [List.mem_reverse] at hmem
  have := List.mem_takeWhile_imp hmem
  simp at this

theorem finalPathComponent_of_no_slash (s : GoStr) (h : '/' ∉ s) :
    finalPathComponent s = s := by
  unfold finalPathComponent
  rw [takeWhile_of_all _ _ fun a ha => by
        simp only [ne_eq, decide_eq_true_eq]
        intro heq
        exact h (List.mem_reverse.mp (heq ▸ ha)),
    List.reverse_reverse]

theorem goBase_eq_final (name : GoStr) (hne : name ≠ [])
    (hlast : name.getLast? ≠ some '/') : goBase name = finalPathComponent name := by
  have hrne : name.reverse ≠ [] := fun hr => hne (List.reverse_eq_nil_iff.mp hr)
  obtain ⟨h0, t0, hrev⟩ := List.exists_cons_of_ne_nil hrne
  have hh0 : h0 ≠ '/' := by
    intro heq
    apply hlast
    rw [List.getLast?_eq_head?_reverse, hrev, heq]
    rfl
  have hdw : (h0 :: t0).dropWhile (fun c => c = '/') = h0 :: t0 := by
    rw [List.dropWhile_cons, if_neg (by simp only [decide_eq_true_eq]; exact hh0)]
  unfold goBase finalPathComponent
  rw [if_neg hne, hrev, hdw, if_neg (by simp)]

theorem take_sub_ext (base : GoStr) (hns : '/' ∉ base) :
    base.take (base.length - (goExt base).length) = stripExtension base := by
  have hseg : base.reverse.takeWhile (fun c => c ≠ '/') = base.reverse :=
    takeWhile_of_all _ _ fun a ha => by
      simp only [ne_eq, decide_eq_true_eq]
      intro heq
      exact hns (List.mem_reverse.mp (heq ▸ ha))
  unfold goExt stripExtension
  rw [hseg]
  by_cases hdot : '.' ∈ base
  · have hdotrev : '.' ∈ base.reverse := List.mem_reverse.mpr hdot
    rw [if_pos hdotrev, if_pos hdot]
    obtain ⟨d, hd1, hd2⟩ := dropWhile_mem_split base.reverse '.' hdotrev
    rw [hd1]
    generalize base.reverse.takeWhile (fun c => c ≠ '.') = tw at hd2 ⊢
    have hbase : base = d.reverse ++ '.' :: tw.reverse := by
      have hbr := congrArg List.reverse hd2
      rwa [List.reverse_reverse, List.reverse_append, List.reverse_cons,
        List.append_assoc, List.singleton_append] at hbr
    have hlen : base.length = d.length + (tw.length + 1) := by
      rw [hbase]
      simp only [List.length_append, List.length_cons, List.length_reverse]
    have harith : base.length - ((tw ++ ['.']).reverse).length = d.length := by
      simp only [List.length_reverse, List.length_append, List.length_cons,
        List.length_nil]
      omega
    have hdrop : ('.' :: d).drop 1 = d := rfl
    rw [harith, hdrop]
    conv_lhs => rw [hbase]
    exact List.take_left' (List.length_reverse d)
  · have hdotrev : '.' ∉ base.reverse := fun hh => hdot (List.mem_reverse.mp hh)
    rw [if_neg hdotrev, if_neg hdot]
    simp [List.take_length]

theorem inferTypeName_eq_strip (name : GoStr) (hne : name ≠ [])
    (hlast : name.getLast? ≠ some '/') :
    inferTypeName name = stripExtension (finalPathComponent name) := by
  unfold inferTypeName
  rw [goBase_eq_final name hne hlast]
  exact take_sub_ext _ (finalPathComponent_no_slash name)

/-- Claim C6: for every artifact name (nonempty and not ending in a path
separator), the derived type name equals the final path component with its
file extension stripped; and an artifact name with no extension is accepted,
its type name being the name itself. -/
theorem inferTypeName_strips_extension (name : GoStr) (hne : name ≠ [])
    (hlast : name.getLast? ≠ some '/') :
    inferTypeName name = stripExtension (finalPathComponent name) ∧
    ('.' ∉ name → '/' ∉ name → inferTypeName name = name) := by
  refine ⟨inferTypeName_eq_strip name hne hlast, fun hdot hslash => ?_⟩
  rw [inferTypeName_eq_strip name hne hlast,
    finalPathComponent_of_no_slash name hslash]
  unfold stripExtension
  rw [if_neg hdot]

/-- Witness for C6: the extension of "Widget.json" is stripped, and the
extensionless name "Widget" is accepted as its own type name. -/
theorem inferTypeName_strips_extension_witness :
    (("Widget.json".toList ≠ [] ∧ ("Widget.json".toList).getLast? ≠ some '/') ∧
     inferTypeName "Widget.json".toList =
       stripExtension (finalPathComponent "Widget.json".toList)) ∧
    (("Widget".toList ≠ [] ∧ ("Widget".toList).getLast? ≠ some '/') ∧
     ('.' ∉ "Widget".toList → '/' ∉ "Widget".toList →
        inferTypeName "Widget".toList = "Widget".toList)) :=
  ⟨⟨⟨by decide, by decide⟩,
    (inferTypeName_strips_extension "Widget.json".toList (by decide)
      (by decide)).1⟩,
   ⟨⟨by decide, by decide⟩,
    (inferTypeName_strips_extension "Widget".toList (by decide)
      (by decide)).2⟩⟩

/-! ## Lemmas about the mapping-file loader (claim C7) -/

theorem allStrings_ok_iff (ps : List (GoStr × JVal)) (acc : List (GoStr × GoStr)) :
    (∃ m, allStrings ps acc = .ok m) ↔
      (ps.all fun kv => isJStr kv.2) = true := by
  induction ps generalizing acc with
  | nil => simp [allStrings]
  | cons kv rest ih =>
    obtain ⟨k, v⟩ := kv
    cases v with
    | jstr s => simp [allStrings, isJStr, ih]
    | jnum n => simp [allStrings, isJStr]

theorem jsonUnmarshal_ok_iff (d : Bytes) :
    (∃ m, jsonUnmarshalStringMap d = .ok m) ↔
      (isNullDoc (bytesChars d) = true ∨ parsesAsFlatStringObject d = true) := by
  unfold jsonUnmarshalStringMap parsesAsFlatStringObject
  by_cases hn : isNullDoc (bytesChars d) = true
  · simp [hn]
  · cases hp : parseTopObject (bytesChars d) with
    | none => simp [hn, hp]
    | some pairs => simp [hn, hp, allStrings_ok_iff]

/-- Claim C7 (amended): LoadRegistry reads exactly the mapping file and no
artifact file; it propagates a read failure as its error, fails with the
decoder's error exactly when the content neither is the JSON literal `null`
nor parses as a flat JSON object of string-to-string pairs, and on success
returns a registry whose mapping table is the parsed content (`null` yielding
an empty table). -/
theorem load_registry_characterization (fs : Fs) (path dir : GoStr)
    (types : List (GoStr × Ref)) :
    (LoadRegistry fs path dir types).2 = [path] ∧
    (∀ c, fs path = .error c →
       (LoadRegistry fs path dir types).1 =
         .error (.readErr "open".toList path c)) ∧
    (∀ d m, fs path = .ok d → jsonUnmarshalStringMap d = .ok m →
       (LoadRegistry fs path dir types).1 = .ok ⟨m, dir, types⟩) ∧
    (∀ d e, fs path = .ok d → jsonUnmarshalStringMap d = .error e →
       (LoadRegistry fs path dir types).1 = .error (.jsonErr e)) ∧
    (∀ d, (∃ m, jsonUnmarshalStringMap d = .ok m) ↔
       (isNullDoc (bytesChars d) = true ∨ parsesAsFlatStringObject d = true)) := by
  refine ⟨?_, ?_, ?_, ?_, fun d => jsonUnmarshal_ok_iff d⟩
  · cases hr : fs path with
    | error c => simp [LoadRegistry, hr]
    | ok dta =>
      cases hj : jsonUnmarshalStringMap dta with
      | error e => simp [LoadRegistry, hr, hj]
      | ok m => simp [LoadRegistry, hr, hj]
  · intro c hr
    simp [LoadRegistry, hr]
  · intro d m hr hj
    simp [LoadRegistry, hr, hj]
  · intro d e hr hj
    simp [LoadRegistry, hr, hj]

/-- Counterexample for C7: the mapping-file content `null` is readable and
does not parse as a flat JSON object of string-to-string pairs, yet
LoadRegistry succeeds with an empty mapping table, because `encoding/json`
treats a top-level JSON null as a no-op for a map target. -/
theorem load_accepts_null_cex :
    parsesAsFlatStringObject (strBytes "null".toList) = false ∧
    fsNullMapping mappingPath = .ok (strBytes "null".toList) ∧
    LoadRegistry fsNullMapping mappingPath dirA [] =
      (.ok ⟨[], dirA, []⟩, [mappingPath]) :=
  ⟨by decide, rfl, rfl⟩

/-- Witness for C7 (amended): a well-formed mapping file loads into a
registry holding exactly the parsed table, after reading only that file. -/
theorem load_registry_characterization_witness :
    (fsMapping mappingPath = .ok mappingBytes ∧
     jsonUnmarshalStringMap mappingBytes = .ok [("k".toList, "V.json".toList)]) ∧
    ((LoadRegistry fsMapping mappingPath dirA []).2 = [mappingPath] ∧
     (LoadRegistry fsMapping mappingPath dirA []).1 =
       .ok ⟨[("k".toList, "V.json".toList)], dirA, []⟩) :=
  ⟨⟨rfl, rfl⟩,
   ⟨(load_registry_characterization fsMapping mappingPath dirA []).1,
    (load_registry_characterization fsMapping mappingPath dirA []).2.2.1
      mappingBytes [("k".toList, "V.json".toList)] rfl rfl⟩⟩
